import Mathlib

/-!
Verification of the Codility API client (`api-calls.py`) and the
completed-session export script (`export-completed-sessions.py`).

JSON values are shallowly embedded as the inductive `Json`; Python dicts are
association lists whose first binding for a key is the binding (Python dicts
have unique keys; `insertA` models `d[k] = v`, which replaces in place or
appends).  Python floats are carried by their `repr` string (json.dumps prints
a float via `repr`); no claim computes with float arithmetic.  Network traffic
is an oracle function from requests to responses; `requests` exceptions and
Python `AttributeError`/`TypeError` crashes are modelled with `Except`/`Option`.
-/

inductive Json where
  | null
  | bool (b : Bool)
  | int (n : Int)
  | float (r : String)
  | str (s : String)
  | arr (xs : List Json)
  | obj (kvs : List (String × Json))

/-- Python truthiness (`bool(v)`) of a JSON value; a float is falsy exactly
when it is zero, whose `repr` is "0.0" or "-0.0". -/
def truthy : Json → Bool
  | .null => false
  | .bool b => b
  | .int n => n != 0
  | .float r => !(r == "0.0" || r == "-0.0")
  | .str s => !(s == "")
  | .arr xs => !xs.isEmpty
  | .obj kvs => !kvs.isEmpty

/-- Python `isinstance(v, (dict, list))`. -/
def isContainer : Json → Bool
  | .obj _ => true
  | .arr _ => true
  | _ => false

/-- Python `d.get(k)` on a dict modelled as an association list. -/
def getOpt (m : List (String × Json)) (k : String) : Option Json :=
  match m with
  | [] => none
  | (k2, v) :: rest => if k2 == k then some v else getOpt rest k

/-- Python `d.get(k, dflt)`. -/
def getD (m : List (String × Json)) (k : String) (dflt : Json) : Json :=
  (getOpt m k).getD dflt

/-- Python `d[k] = v`: replace the binding in place when the key exists,
otherwise append it (dict insertion order). -/
def insertA (m : List (String × Json)) (k : String) (v : Json) : List (String × Json) :=
  if m.any (fun kv => kv.1 == k) then
    m.map (fun kv => if kv.1 == k then (k, v) else kv)
  else m ++ [(k, v)]

/-- Lowercase hex digit. -/
def hexDigit (n : Nat) : Char :=
  if n < 10 then Char.ofNat (48 + n) else Char.ofNat (87 + n)

/-- Four lowercase hex digits, as in json.dumps \u escapes. -/
def hex4 (n : Nat) : String :=
  String.mk [hexDigit (n / 4096 % 16), hexDigit (n / 256 % 16),
             hexDigit (n / 16 % 16), hexDigit (n % 16)]

/-- Escape of one character inside a JSON string literal, following
`json.dumps` defaults (ensure_ascii, short escapes for the usual control
characters, surrogate pairs beyond the BMP). -/
def escapeChar (c : Char) : String :=
  if c == '"' then "\\\""
  else if c == '\\' then "\\\\"
  else if c == '\n' then "\\n"
  else if c == '\t' then "\\t"
  else if c == '\r' then "\\r"
  else if c == '\x08' then "\\b"
  else if c == '\x0c' then "\\f"
  else if c.toNat < 32 then "\\u" ++ hex4 c.toNat
  else if c.toNat < 128 then String.mk [c]
  else if c.toNat < 65536 then "\\u" ++ hex4 c.toNat
  else
    "\\u" ++ hex4 (55296 + (c.toNat - 65536) / 1024) ++
      "\\u" ++ hex4 (56320 + (c.toNat - 65536) % 1024)

/-- A JSON string literal as printed by `json.dumps`. -/
def dumpStr (s : String) : String :=
  "\"" ++ String.join (s.data.map escapeChar) ++ "\""

mutual

/-- Python `json.dumps(v)` with default separators. -/
def Json.dumps : Json → String
  | .null => "null"
  | .bool true => "true"
  | .bool false => "false"
  | .int n => toString n
  | .float r => r
  | .str s => dumpStr s
  | .arr xs => "[" ++ String.intercalate ", " (dumpsList xs) ++ "]"
  | .obj kvs => "\x7b" ++ String.intercalate ", " (dumpsObj kvs) ++ "\x7d"

/-- Dumps of the elements of a JSON array. -/
def dumpsList : List Json → List String
  | [] => []
  | j :: js => Json.dumps j :: dumpsList js

/-- Dumps of the key-value pairs of a JSON object. -/
def dumpsObj : List (String × Json) → List String
  | [] => []
  | (k, v) :: kvs => (dumpStr k ++ ": " ++ Json.dumps v) :: dumpsObj kvs

end

/-- Value transformation in `flatten_data`:
`json.dumps(value) if isinstance(value, (dict, list)) else value`. -/
def flattenValue (v : Json) : Json :=
  if isContainer v then Json.str (Json.dumps v) else v

/-- `flatten_data(session_data, similarity_data)` from
export-completed-sessions.py: one record, session fields (except
`candidate`) under a `session_` namespace, similarity fields under a
`similarity_` namespace, nested containers JSON-encoded. -/
def flatten_data (session_data similarity_data : List (String × Json)) : List (String × Json) :=
  let record := session_data.foldl
    (fun record kv =>
      if kv.1 == "candidate" then record
      else insertA record ("session_" ++ kv.1) (flattenValue kv.2)) []
  similarity_data.foldl
    (fun record kv => insertA record ("similarity_" ++ kv.1) (flattenValue kv.2)) record

/-- Truthiness of `d.get(k)` (Python `None` is falsy). -/
def truthyO : Option Json → Bool
  | none => false
  | some j => truthy j

/-- The per-session record of the export loop: `flatten_data(data, similarity)`
followed by the three candidate-field assignments, where the candidate is
`data.get("candidate", dict())`.  `none` models the Python
`AttributeError` raised by `candidate.get(...)` when the `candidate` field
holds a non-dict value. -/
def buildRecord (data similarity : List (String × Json)) : Option (List (String × Json)) :=
  match getD data "candidate" (Json.obj []) with
  | .obj cand =>
    let record := flatten_data data similarity
    let record := insertA record "first_name" (getD cand "firstName" (Json.str ""))
    let record := insertA record "last_name" (getD cand "lastName" (Json.str ""))
    some (insertA record "email" (getD cand "email" (Json.str "")))
  | _ => none

/-- The remote system behind the client calls made by `main`: the response
body of `list_tests`, and of `list_test_sessions`, `get_session_data` and
`get_similarity_results` as functions of the identifier argument
(`session_id` is `sess.get("id")`, possibly Python `None`). -/
structure ApiOracle where
  tests_resp : List (String × Json)
  sessions_resp : Json → List (String × Json)
  session_data : Option Json → List (String × Json)
  similarity : Option Json → List (String × Json)

/-- The `for sess in sessions` loop of `main`: keep a session only when its
detail record has a truthy `end_time`, and build its flattened record.
`none` models a Python crash (a non-dict session element, or a non-dict
`candidate` value). -/
def processSessions (o : ApiOracle) : List Json → Option (List (List (String × Json)))
  | [] => some []
  | sess :: rest =>
    match sess with
    | .obj skvs =>
      let session_id := getOpt skvs "id"
      let data := o.session_data session_id
      if truthyO (getOpt data "end_time") then
        match buildRecord data (o.similarity session_id) with
        | some record => (processSessions o rest).map (record :: ·)
        | none => none
      else processSessions o rest
    | _ => none

/-- Python iteration over a JSON value: lists yield elements, dicts yield
their keys, strings yield one-character strings; other values raise
`TypeError` (modelled as `none`). -/
def pyIter : Json → Option (List Json)
  | .arr xs => some xs
  | .obj kvs => some (kvs.map (fun kv => Json.str kv.1))
  | .str s => some (s.data.map (fun c => Json.str (String.mk [c])))
  | _ => none

/-- The test-listing loop body requires each test to be a dict (`t.get`)
carrying an `id` key (indexed directly as `t[...]`); anything else raises. -/
def asObjWithId (j : Json) : Option (List (String × Json)) :=
  match j with
  | .obj kvs => if (getOpt kvs "id").isSome then some kvs else none
  | _ => none

/-- The match predicate of the test-name resolution:
`(t.get("title") == test_name) or (t.get("name") == test_name)`.
A Python `==` between a string and a non-string JSON value is `False`. -/
def matchesName (name : String) (t : List (String × Json)) : Bool :=
  (match getOpt t "title" with | some (.str s) => s == name | _ => false) ||
  (match getOpt t "name" with | some (.str s) => s == name | _ => false)

/-- Code-point comparison of character lists, the order Python string
comparison uses. -/
def charListLe : List Char → List Char → Bool
  | [], _ => true
  | _ :: _, [] => false
  | a :: as, b :: bs =>
    if a.toNat < b.toNat then true
    else if b.toNat < a.toNat then false
    else charListLe as bs

/-- Python `<=` on strings: lexicographic by code point. -/
def strLeB (a b : String) : Bool := charListLe a.data b.data

instance strLeBRel : DecidableRel (fun a b : String => strLeB a b = true) :=
  fun a b => inferInstanceAs (Decidable (strLeB a b = true))

instance strLeBTotal : IsTotal String (fun a b : String => strLeB a b = true) := by
  constructor
  suffices h : ∀ x y : List Char, charListLe x y = true ∨ charListLe y x = true by
    intro a b
    exact h a.data b.data
  intro x
  induction x with
  | nil => intro y; left; rfl
  | cons c cs ih =>
    intro y
    cases y with
    | nil => right; rfl
    | cons e es =>
      by_cases h1 : c.toNat < e.toNat
      · left; simp [charListLe, h1]
      · by_cases h2 : e.toNat < c.toNat
        · right; simp [charListLe, h1, h2]
        · rcases ih es with h | h
          · left; simp [charListLe, h1, h2, h]
          · right; simp [charListLe, h1, h2, h]

instance strLeBTrans : IsTrans String (fun a b : String => strLeB a b = true) := by
  constructor
  suffices h : ∀ x y z : List Char,
      charListLe x y = true → charListLe y z = true → charListLe x z = true by
    intro a b c hab hbc
    exact h a.data b.data c.data hab hbc
  intro x
  induction x with
  | nil => intro y z _ _; rfl
  | cons c cs ih =>
    intro y z hab hbc
    cases y with
    | nil => simp [charListLe] at hab
    | cons e es =>
      cases z with
      | nil => simp [charListLe] at hbc
      | cons f fs =>
        simp only [charListLe] at hab hbc ⊢
        have hab2 : c.toNat < e.toNat ∨ (¬ e.toNat < c.toNat ∧ charListLe cs es = true) := by
          by_cases h1 : c.toNat < e.toNat
          · exact Or.inl h1
          · by_cases h2 : e.toNat < c.toNat
            · simp [h1, h2] at hab
            · simp [h1, h2] at hab
              exact Or.inr ⟨h2, hab⟩
        have hbc2 : e.toNat < f.toNat ∨ (¬ f.toNat < e.toNat ∧ charListLe es fs = true) := by
          by_cases h1 : e.toNat < f.toNat
          · exact Or.inl h1
          · by_cases h2 : f.toNat < e.toNat
            · simp [h1, h2] at hbc
            · simp [h1, h2] at hbc
              exact Or.inr ⟨h2, hbc⟩
        rcases hab2 with h1 | ⟨h1, htail1⟩ <;> rcases hbc2 with h2 | ⟨h2, htail2⟩
        · have h3 : c.toNat < f.toNat := Nat.lt_trans h1 h2
          simp [h3]
        · have h3 : c.toNat < f.toNat := Nat.lt_of_lt_of_le h1 (Nat.le_of_not_lt h2)
          simp [h3]
        · have h3 : c.toNat < f.toNat := Nat.lt_of_le_of_lt (Nat.le_of_not_lt h1) h2
          simp [h3]
        · by_cases hxz : c.toNat < f.toNat
          · simp [hxz]
          · have hzx : ¬ f.toNat < c.toNat := by
              have hce := Nat.le_of_not_lt h1
              have hef := Nat.le_of_not_lt h2
              omega
            simp [hxz, hzx]
            exact ih es fs htail1 htail2

/-- Python `sorted` on a list of strings (insertion sort gives the same
result: the keys being sorted are distinct, so stability is irrelevant). -/
def sortStrings (l : List String) : List String :=
  List.insertionSort (fun a b : String => strLeB a b = true) l

/-- Python `test_name.replace(' ', '_')` (a one-character pattern, so a
character map). -/
def replaceSpaces (s : String) : String :=
  String.mk (s.data.map (fun c => if c == ' ' then '_' else c))

/-- An ASCII Python whitespace character (`str.strip` set). -/
def isPySpace (c : Char) : Bool :=
  c == ' ' || c == '\t' || c == '\n' || c == '\r' || c == '\x0b' || c == '\x0c'

/-- Python `s.strip()` (ASCII whitespace; no claim involves the Unicode
whitespace Python additionally strips). -/
def pyStrip (s : String) : String :=
  String.mk (((s.data.dropWhile isPySpace).reverse.dropWhile isPySpace).reverse)

/-- Outcome of a run of `main`: a `sys.exit(code)` with the printed message,
a written CSV file (name, header, records), or an uncaught Python exception. -/
inductive MainResult where
  | crash
  | exited (code : Nat) (msg : String)
  | wrote (filename : String) (fieldnames : List String) (records : List (List (String × Json)))

/-- The tail of `main` once a test id is resolved: fetch the sessions,
filter and flatten them, and either report an empty result or write the CSV
whose header is the sorted key list of the first record.  `csv.DictWriter`
raises on a row key outside `fieldnames`, hence the final guard. -/
def exportForTest (o : ApiOracle) (test_name : String) (test_id : Json) : MainResult :=
  match pyIter (getD (o.sessions_resp test_id) "sessions" (Json.arr [])) with
  | none => .crash
  | some sessions =>
    match processSessions o sessions with
    | none => .crash
    | some [] => .exited 0 "No completed sessions found for this test."
    | some (r0 :: rs) =>
      if (r0 :: rs).all
          (fun r => r.all (fun kv => (sortStrings (r0.map Prod.fst)).contains kv.1)) then
        .wrote (replaceSpaces test_name ++ "_completed_sessions.csv")
          (sortStrings (r0.map Prod.fst)) (r0 :: rs)
      else .crash

/-- The name-resolution step of `main`: filter the tests on an exact name
match, exit 1 when nothing matches, otherwise continue with the id of the
first match (which exists: every listed test was checked for `id`). -/
def afterTests (o : ApiOracle) (rawName : String) (tests : List (List (String × Json))) : MainResult :=
  match tests.filter (fun t => matchesName (pyStrip rawName) t) with
  | [] => .exited 1 ("No test found with name \x27" ++ pyStrip rawName ++ "\x27")
  | t0 :: _ => exportForTest o (pyStrip rawName) ((getOpt t0 "id").getD Json.null)

/-- `main()` of export-completed-sessions.py, as a function of the
`CODILITY_API_KEY` environment variable, the remote system, and the raw
operator input line. -/
def runMain (apiKey : Option String) (o : ApiOracle) (rawName : String) : MainResult :=
  match apiKey with
  | none => .exited 1 "Error: Please set the CODILITY_API_KEY environment variable."
  | some key =>
    if key == "" then
      .exited 1 "Error: Please set the CODILITY_API_KEY environment variable."
    else
      if truthy (getD o.tests_resp "tests" (Json.arr [])) then
        match pyIter (getD o.tests_resp "tests" (Json.arr [])) with
        | none => .crash
        | some tsJ =>
          match tsJ.mapM asObjWithId with
          | none => .crash
          | some tests => afterTests o rawName tests
      else .exited 0 "No tests found in your account."

/-- Process exit code of an outcome (a written file is a normal return from
`main`, exit code 0). -/
def exitCode : MainResult → Option Nat
  | .crash => none
  | .exited c _ => some c
  | .wrote _ _ _ => some 0

/-- Whether an outcome produced an output file. -/
def producesFile : MainResult → Bool
  | .wrote _ _ _ => true
  | _ => false

/-- Whether the export loop keeps a session: its element is a dict and the
fetched detail record has a truthy `end_time`. -/
def sessionIncluded (o : ApiOracle) (sess : Json) : Bool :=
  match sess with
  | .obj skvs => truthyO (getOpt (o.session_data (getOpt skvs "id")) "end_time")
  | _ => false

/-- The record the export loop builds for a kept session. -/
def sessionRow (o : ApiOracle) (sess : Json) : List (String × Json) :=
  match sess with
  | .obj skvs =>
    (buildRecord (o.session_data (getOpt skvs "id")) (o.similarity (getOpt skvs "id"))).getD []
  | _ => []

/-! API client (api-calls.py).  Each method issues exactly one HTTP request
through the `net` oracle, calls `raise_for_status`, and returns the parsed
response body (`response.json()`), the raw bytes (`response.content`), or
nothing (`cancel_session`). -/

inductive HttpMethod where
  | get
  | post
  | delete

structure HttpRequest where
  method : HttpMethod
  url : String
  payload : Option Json

/-- A wire response: status code, the JSON parse of the body when the body
parses (`response.json()` raises otherwise), and the raw body bytes. -/
structure HttpResponse where
  status : Nat
  jsonBody : Option Json
  content : List Nat

inductive ApiError where
  | httpError (status : Nat) (content : List Nat)
  | jsonDecodeError

/-- Error class of `requests.Response.raise_for_status`: 4xx and 5xx. -/
def errClassB (st : Nat) : Bool := 400 ≤ st && st < 600

/-- `response.raise_for_status()`: raise `HTTPError` on a client-error or
server-error status, return silently otherwise. -/
def raise_for_status (r : HttpResponse) : Except ApiError Unit :=
  if errClassB r.status then .error (.httpError r.status r.content) else .ok ()

/-- `response.json()`. -/
def HttpResponse.json (r : HttpResponse) : Except ApiError Json :=
  match r.jsonBody with
  | some j => .ok j
  | none => .error .jsonDecodeError

/-- Python `base_url.rstrip('/')`. -/
def rstripSlash (s : String) : String :=
  String.mk ((s.data.reverse.dropWhile (fun c => c == '/')).reverse)

/-- The connection context: normalized base URL and the two headers the
constructor sets on the shared `requests.Session`. -/
structure CodilityAPIClient where
  base_url : String
  headers : List (String × String)

/-- `CodilityAPIClient.__init__(api_key, base_url)`. -/
def CodilityAPIClient.init (api_key : String) (base_url : String) : CodilityAPIClient :=
  { base_url := rstripSlash base_url,
    headers := [("Authorization", "Bearer " ++ api_key),
                ("Content-Type", "application/json")] }

/-- Construction with the default `base_url` argument. -/
def CodilityAPIClient.initDefault (api_key : String) : CodilityAPIClient :=
  CodilityAPIClient.init api_key "https://codility.com/api"

/-- Shared shape of every JSON-returning call: one request, then
`raise_for_status`, then `response.json()`. -/
def jsonCall (net : HttpRequest → HttpResponse) (req : HttpRequest) : Except ApiError Json :=
  let response := net req
  match raise_for_status response with
  | .error e => .error e
  | .ok _ => response.json

/-- Shared shape of the binary call: `raise_for_status` then
`response.content`. -/
def bytesCall (net : HttpRequest → HttpResponse) (req : HttpRequest) : Except ApiError (List Nat) :=
  let response := net req
  match raise_for_status response with
  | .error e => .error e
  | .ok _ => .ok response.content

/-- Shared shape of the deletion call: `raise_for_status` then `None`. -/
def unitCall (net : HttpRequest → HttpResponse) (req : HttpRequest) : Except ApiError Unit :=
  let response := net req
  match raise_for_status response with
  | .error e => .error e
  | .ok _ => .ok ()

def CodilityAPIClient.get_user_details (c : CodilityAPIClient) (net : HttpRequest → HttpResponse) : Except ApiError Json :=
  jsonCall net ⟨.get, c.base_url ++ "/account/user", none⟩

def CodilityAPIClient.get_available_credits (c : CodilityAPIClient) (net : HttpRequest → HttpResponse) : Except ApiError Json :=
  jsonCall net ⟨.get, c.base_url ++ "/account/credits", none⟩

def CodilityAPIClient.list_user_logins (c : CodilityAPIClient) (net : HttpRequest → HttpResponse) : Except ApiError Json :=
  jsonCall net ⟨.get, c.base_url ++ "/account/logins", none⟩

def CodilityAPIClient.list_codelive_templates (c : CodilityAPIClient) (net : HttpRequest → HttpResponse) : Except ApiError Json :=
  jsonCall net ⟨.get, c.base_url ++ "/codelive/templates", none⟩

/-- Payload built as the template-id binding merged with candidate_info. -/
def CodilityAPIClient.create_codelive_session (c : CodilityAPIClient) (net : HttpRequest → HttpResponse) (template_id : String) (candidate_info : List (String × Json)) : Except ApiError Json :=
  let payload := candidate_info.foldl (fun m kv => insertA m kv.1 kv.2)
    [("template_id", Json.str template_id)]
  jsonCall net ⟨.post, c.base_url ++ "/codelive/sessions", some (Json.obj payload)⟩

def CodilityAPIClient.create_whiteboard (c : CodilityAPIClient) (net : HttpRequest → HttpResponse) (session_id : String) : Except ApiError Json :=
  jsonCall net ⟨.post, c.base_url ++ "/codelive/whiteboards",
    some (Json.obj [("session_id", Json.str session_id)])⟩

def CodilityAPIClient.list_email_templates (c : CodilityAPIClient) (net : HttpRequest → HttpResponse) : Except ApiError Json :=
  jsonCall net ⟨.get, c.base_url ++ "/email/templates", none⟩

def CodilityAPIClient.get_default_email_template (c : CodilityAPIClient) (net : HttpRequest → HttpResponse) : Except ApiError Json :=
  jsonCall net ⟨.get, c.base_url ++ "/email/templates/default", none⟩

def CodilityAPIClient.create_email_template (c : CodilityAPIClient) (net : HttpRequest → HttpResponse) (name subject body : String) : Except ApiError Json :=
  jsonCall net ⟨.post, c.base_url ++ "/email/templates",
    some (Json.obj [("name", Json.str name), ("subject", Json.str subject),
                    ("body", Json.str body)])⟩

def CodilityAPIClient.list_sessions (c : CodilityAPIClient) (net : HttpRequest → HttpResponse) : Except ApiError Json :=
  jsonCall net ⟨.get, c.base_url ++ "/sessions", none⟩

def CodilityAPIClient.get_session_data (c : CodilityAPIClient) (net : HttpRequest → HttpResponse) (session_id : String) : Except ApiError Json :=
  jsonCall net ⟨.get, c.base_url ++ "/sessions/" ++ session_id, none⟩

def CodilityAPIClient.get_pdf_report (c : CodilityAPIClient) (net : HttpRequest → HttpResponse) (session_id : String) : Except ApiError (List Nat) :=
  bytesCall net ⟨.get, c.base_url ++ "/sessions/" ++ session_id ++ "/report/pdf", none⟩

def CodilityAPIClient.get_similarity_results (c : CodilityAPIClient) (net : HttpRequest → HttpResponse) (session_id : String) : Except ApiError Json :=
  jsonCall net ⟨.get, c.base_url ++ "/sessions/" ++ session_id ++ "/similarity", none⟩

def CodilityAPIClient.email_candidates (c : CodilityAPIClient) (net : HttpRequest → HttpResponse) (session_id email_template_id : String) : Except ApiError Json :=
  jsonCall net ⟨.post, c.base_url ++ "/sessions/" ++ session_id ++ "/email",
    some (Json.obj [("template_id", Json.str email_template_id)])⟩

def CodilityAPIClient.cancel_session (c : CodilityAPIClient) (net : HttpRequest → HttpResponse) (session_id : String) : Except ApiError Unit :=
  unitCall net ⟨.delete, c.base_url ++ "/sessions/" ++ session_id, none⟩

def CodilityAPIClient.embed_candidate_report (c : CodilityAPIClient) (net : HttpRequest → HttpResponse) (session_id : String) : Except ApiError Json :=
  jsonCall net ⟨.get, c.base_url ++ "/sessions/" ++ session_id ++ "/embed", none⟩

def CodilityAPIClient.list_tests (c : CodilityAPIClient) (net : HttpRequest → HttpResponse) : Except ApiError Json :=
  jsonCall net ⟨.get, c.base_url ++ "/tests", none⟩

def CodilityAPIClient.get_test_details (c : CodilityAPIClient) (net : HttpRequest → HttpResponse) (test_id : String) : Except ApiError Json :=
  jsonCall net ⟨.get, c.base_url ++ "/tests/" ++ test_id, none⟩

def CodilityAPIClient.list_test_sessions (c : CodilityAPIClient) (net : HttpRequest → HttpResponse) (test_id : String) : Except ApiError Json :=
  jsonCall net ⟨.get, c.base_url ++ "/tests/" ++ test_id ++ "/sessions", none⟩

def CodilityAPIClient.add_candidates (c : CodilityAPIClient) (net : HttpRequest → HttpResponse) (test_id : String) (candidates : List Json) : Except ApiError Json :=
  jsonCall net ⟨.post, c.base_url ++ "/tests/" ++ test_id ++ "/candidates",
    some (Json.obj [("candidates", Json.arr candidates)])⟩

/-- Whether `pre` is an initial segment of `s` (code-point wise). -/
def strHasPre (pre s : String) : Bool :=
  decide (s.data.take pre.data.length = pre.data)

/-- Spec-side outcome of a JSON read/write operation ("a non-success HTTP
status of the error classes fails the call with a structured failure; on
success the parsed body is returned unmodified"), as a function of the one
response received. -/
def specJsonOutcome (r : HttpResponse) : Except ApiError Json :=
  if errClassB r.status then Except.error (ApiError.httpError r.status r.content)
  else match r.jsonBody with
       | some j => Except.ok j
       | none => Except.error ApiError.jsonDecodeError

/-- Spec-side outcome of the binary report operation: raw bytes on success. -/
def specBytesOutcome (r : HttpResponse) : Except ApiError (List Nat) :=
  if errClassB r.status then Except.error (ApiError.httpError r.status r.content)
  else Except.ok r.content

/-- Spec-side outcome of the cancellation operation: no value on success. -/
def specUnitOutcome (r : HttpResponse) : Except ApiError Unit :=
  if errClassB r.status then Except.error (ApiError.httpError r.status r.content)
  else Except.ok ()

/-! Helper lemmas: strings, association lists, folds. -/

lemma str_append_cancel (p a b : String) (h : p ++ a = p ++ b) : a = b := by
  have h2 := congrArg String.data h
  rw [String.data_append, String.data_append] at h2
  exact String.ext (List.append_cancel_left h2)

lemma strHasPre_append (pre t : String) : strHasPre pre (pre ++ t) = true := by
  have hdata : ((pre ++ t).data.take pre.data.length) = pre.data := by
    rw [String.data_append, List.take_append_of_le_length (Nat.le_refl _), List.take_length]
  simp [strHasPre, hdata]

lemma append_ne_of_pre_false (pre s : String) (h : strHasPre pre s = false) (t : String) :
    pre ++ t ≠ s := by
  intro heq
  rw [← heq] at h
  rw [strHasPre_append] at h
  simp at h

lemma session_similarity_disjoint (a b : String) :
    ("session_" ++ a) ≠ ("similarity_" ++ b) := by
  intro h
  have h2 := congrArg String.data h
  rw [String.data_append, String.data_append] at h2
  have h3 := congrArg (List.take 3) h2
  rw [List.take_append_of_le_length (by decide), List.take_append_of_le_length (by decide)] at h3
  exact absurd h3 (by decide)

lemma getOpt_eq_none (m : List (String × Json)) (k : String)
    (h : k ∉ m.map Prod.fst) : getOpt m k = none := by
  induction m with
  | nil => rfl
  | cons kv rest ih =>
    obtain ⟨k2, v⟩ := kv
    simp only [List.map_cons, List.mem_cons] at h
    push_neg at h
    simp only [getOpt]
    rw [if_neg (by simpa [beq_iff_eq] using Ne.symm h.1)]
    exact ih h.2

lemma getOpt_append (m n : List (String × Json)) (k : String) :
    getOpt (m ++ n) k =
      match getOpt m k with
      | some v => some v
      | none => getOpt n k := by
  induction m with
  | nil => rfl
  | cons kv rest ih =>
    obtain ⟨k2, v⟩ := kv
    by_cases h : (k2 == k) = true
    · simp [getOpt, h]
    · simp only [List.cons_append, getOpt, if_neg h]
      exact ih

lemma getOpt_append_right (m n : List (String × Json)) (k : String)
    (h : k ∉ m.map Prod.fst) : getOpt (m ++ n) k = getOpt n k := by
  rw [getOpt_append, getOpt_eq_none m k h]

lemma insertA_not_mem (m : List (String × Json)) (k : String) (v : Json)
    (h : k ∉ m.map Prod.fst) : insertA m k v = m ++ [(k, v)] := by
  have hany : m.any (fun kv => kv.1 == k) = false := by
    rw [List.any_eq_false]
    intro kv hkv
    simp only [beq_iff_eq]
    intro heq
    exact h (heq ▸ List.mem_map_of_mem Prod.fst hkv)
  simp [insertA, hany]

lemma keys_insertA (m : List (String × Json)) (k k2 : String) (v : Json)
    (h : k2 ∈ (insertA m k v).map Prod.fst) : k2 ∈ m.map Prod.fst ∨ k2 = k := by
  by_cases hmem : m.any (fun kv => kv.1 == k) = true
  · simp only [insertA, if_pos hmem] at h
    rcases List.mem_map.mp h with ⟨kv2, hkv2, hv2⟩
    rcases List.mem_map.mp hkv2 with ⟨kv, hkv, hfv⟩
    by_cases hk : (kv.1 == k) = true
    · rw [if_pos hk] at hfv
      right
      rw [← hv2, ← hfv]
    · rw [if_neg hk] at hfv
      left
      rw [← hv2, ← hfv]
      exact List.mem_map_of_mem Prod.fst hkv
  · simp only [insertA, if_neg hmem, List.map_append, List.map_cons, List.map_nil] at h
    rcases List.mem_append.mp h with h1 | h1
    · exact Or.inl h1
    · simp at h1
      exact Or.inr h1

lemma foldl_skipIf {α β : Type} (p : β → Bool) (f : α → β → α) :
    ∀ (l : List β) (a : α),
      List.foldl (fun acc x => if p x then acc else f acc x) a l =
        List.foldl f a (l.filter (fun x => !(p x))) := by
  intro l
  induction l with
  | nil => intro a; rfl
  | cons x xs ih =>
    intro a
    by_cases h : p x = true <;> simp [List.filter, h, ih]


lemma foldl_insertA_eq_append (g1 : String × Json → String) (g2 : String × Json → Json) :
    ∀ (l acc : List (String × Json)),
      (l.map g1).Nodup →
      (∀ kv ∈ l, g1 kv ∉ acc.map Prod.fst) →
      l.foldl (fun r kv => insertA r (g1 kv) (g2 kv)) acc =
        acc ++ l.map (fun kv => (g1 kv, g2 kv)) := by
  intro l
  induction l with
  | nil => intro acc _ _; simp
  | cons kv rest ih =>
    intro acc hnd hfresh
    simp only [List.map_cons, List.nodup_cons] at hnd
    simp only [List.foldl_cons]
    rw [insertA_not_mem acc (g1 kv) (g2 kv) (hfresh kv (List.mem_cons_self kv rest))]
    have hfresh2 : ∀ kv2 ∈ rest, g1 kv2 ∉ (acc ++ [(g1 kv, g2 kv)]).map Prod.fst := by
      intro kv2 hkv2
      rw [List.map_append]
      intro hmem
      rcases List.mem_append.mp hmem with h1 | h1
      · exact hfresh kv2 (List.mem_cons_of_mem kv hkv2) h1
      · simp only [List.map_cons, List.map_nil, List.mem_singleton] at h1
        exact hnd.1 (h1 ▸ List.mem_map_of_mem g1 hkv2)
    rw [ih (acc ++ [(g1 kv, g2 kv)]) hnd.2 hfresh2]
    simp

lemma keys_foldl_insertA (g1 : String × Json → String) (g2 : String × Json → Json) :
    ∀ (l acc : List (String × Json)) (key : String),
      key ∈ ((l.foldl (fun r kv => insertA r (g1 kv) (g2 kv)) acc).map Prod.fst) →
      key ∈ acc.map Prod.fst ∨ ∃ kv ∈ l, key = g1 kv := by
  intro l
  induction l with
  | nil => intro acc key h; exact Or.inl h
  | cons kv rest ih =>
    intro acc key h
    simp only [List.foldl_cons] at h
    rcases ih (insertA acc (g1 kv) (g2 kv)) key h with h1 | h1
    · rcases keys_insertA acc (g1 kv) key (g2 kv) h1 with h2 | h2
      · exact Or.inl h2
      · exact Or.inr ⟨kv, List.mem_cons_self kv rest, h2⟩
    · rcases h1 with ⟨kv2, hkv2, hval⟩
      exact Or.inr ⟨kv2, List.mem_cons_of_mem kv hkv2, hval⟩

lemma flattenValue_not_container (v : Json) : isContainer (flattenValue v) = false := by
  cases v <;> simp [flattenValue, isContainer]

lemma session_append_inj : Function.Injective (fun k : String => "session_" ++ k) :=
  fun a b h => str_append_cancel "session_" a b h

lemma similarity_append_inj : Function.Injective (fun k : String => "similarity_" ++ k) :=
  fun a b h => str_append_cancel "similarity_" a b h

lemma map_prefixed_keys (l : List (String × Json)) (p : String) :
    (l.map (fun kv => (p ++ kv.1, flattenValue kv.2))).map Prod.fst =
      (l.map Prod.fst).map (fun k => p ++ k) := by
  simp [List.map_map, Function.comp]

lemma flatten_data_eq (s d : List (String × Json))
    (hs : (s.map Prod.fst).Nodup) (hd : (d.map Prod.fst).Nodup) :
    flatten_data s d =
      (s.filter (fun kv => !(kv.1 == "candidate"))).map
        (fun kv => ("session_" ++ kv.1, flattenValue kv.2))
      ++ d.map (fun kv => ("similarity_" ++ kv.1, flattenValue kv.2)) := by
  have hsf : ((s.filter (fun kv => !(kv.1 == "candidate"))).map Prod.fst).Nodup :=
    hs.sublist (List.Sublist.map Prod.fst (List.filter_sublist s))
  have hnd1 : ((s.filter (fun kv => !(kv.1 == "candidate"))).map
      (fun kv : String × Json => "session_" ++ kv.1)).Nodup := by
    have heq : (s.filter (fun kv => !(kv.1 == "candidate"))).map
        (fun kv : String × Json => "session_" ++ kv.1) =
        ((s.filter (fun kv => !(kv.1 == "candidate"))).map Prod.fst).map
          (fun k => "session_" ++ k) := by
      simp [List.map_map, Function.comp]
    rw [heq]
    exact hsf.map session_append_inj
  have hnd2 : (d.map (fun kv : String × Json => "similarity_" ++ kv.1)).Nodup := by
    have heq : d.map (fun kv : String × Json => "similarity_" ++ kv.1) =
        (d.map Prod.fst).map (fun k => "similarity_" ++ k) := by
      simp [List.map_map, Function.comp]
    rw [heq]
    exact hd.map similarity_append_inj
  have h1 : s.foldl
      (fun record kv =>
        if kv.1 == "candidate" then record
        else insertA record ("session_" ++ kv.1) (flattenValue kv.2)) [] =
      (s.filter (fun kv => !(kv.1 == "candidate"))).map
        (fun kv => ("session_" ++ kv.1, flattenValue kv.2)) := by
    rw [foldl_skipIf (fun kv : String × Json => kv.1 == "candidate")
      (fun r kv => insertA r ("session_" ++ kv.1) (flattenValue kv.2))]
    rw [foldl_insertA_eq_append (fun kv : String × Json => "session_" ++ kv.1)
      (fun kv : String × Json => flattenValue kv.2)
      (s.filter (fun kv => !(kv.1 == "candidate"))) [] hnd1 (by simp)]
    simp
  have hfresh : ∀ kv ∈ d, (fun kv : String × Json => "similarity_" ++ kv.1) kv ∉
      ((s.filter (fun kv => !(kv.1 == "candidate"))).map
        (fun kv => ("session_" ++ kv.1, flattenValue kv.2))).map Prod.fst := by
    intro kv _ hmem
    rw [map_prefixed_keys] at hmem
    rcases List.mem_map.mp hmem with ⟨k, _, hk⟩
    exact session_similarity_disjoint k kv.1 (hk.trans rfl)
  show d.foldl
      (fun record kv => insertA record ("similarity_" ++ kv.1) (flattenValue kv.2))
      (s.foldl
        (fun record kv =>
          if kv.1 == "candidate" then record
          else insertA record ("session_" ++ kv.1) (flattenValue kv.2)) []) = _
  rw [h1]
  rw [foldl_insertA_eq_append (fun kv : String × Json => "similarity_" ++ kv.1)
    (fun kv : String × Json => flattenValue kv.2) d
    ((s.filter (fun kv => !(kv.1 == "candidate"))).map
      (fun kv => ("session_" ++ kv.1, flattenValue kv.2))) hnd2 hfresh]

lemma flatten_keys (s d : List (String × Json)) (key : String)
    (h : key ∈ (flatten_data s d).map Prod.fst) :
    (∃ kv, kv ∈ s ∧ (kv.1 == "candidate") = false ∧ key = "session_" ++ kv.1) ∨
    (∃ kv, kv ∈ d ∧ key = "similarity_" ++ kv.1) := by
  replace h : key ∈
      (d.foldl
        (fun r kv => insertA r ((fun kv : String × Json => "similarity_" ++ kv.1) kv)
          ((fun kv : String × Json => flattenValue kv.2) kv))
        (s.foldl
          (fun record kv =>
            if kv.1 == "candidate" then record
            else insertA record ("session_" ++ kv.1) (flattenValue kv.2)) [])).map Prod.fst := h
  have h2 := keys_foldl_insertA (fun kv : String × Json => "similarity_" ++ kv.1)
    (fun kv : String × Json => flattenValue kv.2) d
    (s.foldl
      (fun record kv =>
        if kv.1 == "candidate" then record
        else insertA record ("session_" ++ kv.1) (flattenValue kv.2)) []) key h
  rcases h2 with h2 | h2
  · rw [foldl_skipIf (fun kv : String × Json => kv.1 == "candidate")
      (fun r kv => insertA r ("session_" ++ kv.1) (flattenValue kv.2))] at h2
    have h3 := keys_foldl_insertA (fun kv : String × Json => "session_" ++ kv.1)
      (fun kv : String × Json => flattenValue kv.2)
      (s.filter (fun kv => !(kv.1 == "candidate"))) [] key h2
    rcases h3 with h3 | h3
    · simp at h3
    · rcases h3 with ⟨kv, hkv, hval⟩
      rcases List.mem_filter.mp hkv with ⟨hmem, hpred⟩
      exact Or.inl ⟨kv, hmem, by simpa using hpred, hval⟩
  · rcases h2 with ⟨kv, hkv, hval⟩
    exact Or.inr ⟨kv, hkv, hval⟩

lemma flatten_keys_pre (s d : List (String × Json)) (key : String)
    (h : key ∈ (flatten_data s d).map Prod.fst) :
    strHasPre "session_" key = true ∨ strHasPre "similarity_" key = true := by
  rcases flatten_keys s d key h with ⟨kv, _, _, hval⟩ | ⟨kv, _, hval⟩
  · left; rw [hval]; exact strHasPre_append _ _
  · right; rw [hval]; exact strHasPre_append _ _

lemma not_mem_flatten (s d : List (String × Json)) (key : String)
    (h1 : strHasPre "session_" key = false) (h2 : strHasPre "similarity_" key = false) :
    key ∉ (flatten_data s d).map Prod.fst := by
  intro hmem
  rcases flatten_keys_pre s d key hmem with h | h
  · rw [h] at h1; exact Bool.noConfusion h1
  · rw [h] at h2; exact Bool.noConfusion h2

lemma buildRecord_eq (data sim cand : List (String × Json))
    (hc : getD data "candidate" (Json.obj []) = Json.obj cand) :
    buildRecord data sim = some (flatten_data data sim ++
      [("first_name", getD cand "firstName" (Json.str "")),
       ("last_name", getD cand "lastName" (Json.str "")),
       ("email", getD cand "email" (Json.str ""))]) := by
  have hf : "first_name" ∉ (flatten_data data sim).map Prod.fst :=
    not_mem_flatten data sim "first_name" (by decide) (by decide)
  have hl : "last_name" ∉
      ((flatten_data data sim) ++
        [("first_name", getD cand "firstName" (Json.str ""))]).map Prod.fst := by
    rw [List.map_append]
    intro hmem
    rcases List.mem_append.mp hmem with hm | hm
    · exact not_mem_flatten data sim "last_name" (by decide) (by decide) hm
    · simp at hm
  have he : "email" ∉
      (((flatten_data data sim) ++
        [("first_name", getD cand "firstName" (Json.str ""))]) ++
        [("last_name", getD cand "lastName" (Json.str ""))]).map Prod.fst := by
    rw [List.map_append, List.map_append]
    intro hmem
    rcases List.mem_append.mp hmem with hm | hm
    rcases List.mem_append.mp hm with hm2 | hm2
    · exact not_mem_flatten data sim "email" (by decide) (by decide) hm2
    · simp at hm2
    · simp at hm
  simp only [buildRecord, hc]
  rw [insertA_not_mem _ _ _ hf, insertA_not_mem _ _ _ hl, insertA_not_mem _ _ _ he]
  simp [List.append_assoc]

lemma getOpt_record_fields (data sim cand : List (String × Json))
    (hc : getD data "candidate" (Json.obj []) = Json.obj cand)
    (r : List (String × Json)) (hr : buildRecord data sim = some r) :
    getOpt r "first_name" = some (getD cand "firstName" (Json.str "")) ∧
    getOpt r "last_name" = some (getD cand "lastName" (Json.str "")) ∧
    getOpt r "email" = some (getD cand "email" (Json.str "")) := by
  rw [buildRecord_eq data sim cand hc] at hr
  have hr2 : r = flatten_data data sim ++
      [("first_name", getD cand "firstName" (Json.str "")),
       ("last_name", getD cand "lastName" (Json.str "")),
       ("email", getD cand "email" (Json.str ""))] := (Option.some.injEq _ _ ▸ hr).symm
  subst hr2
  refine ⟨?_, ?_, ?_⟩ <;>
    rw [getOpt_append_right _ _ _ (not_mem_flatten data sim _ (by decide) (by decide))] <;> rfl

/-- C1: for every session mapping and similarity mapping, `flatten_data`
produces a single-level mapping in which each session field key (except
`candidate`) appears under the `session_` namespace and each similarity field
key under the `similarity_` namespace, a nested container value is replaced
by its JSON-text encoding and every scalar passes through unchanged; in
particular the concrete example of the spec flattens exactly as stated. -/
theorem claim_C1_flatten_namespacing (s d : List (String × Json))
    (hs : (s.map Prod.fst).Nodup) (hd : (d.map Prod.fst).Nodup) :
    flatten_data s d =
      (s.filter (fun kv => !(kv.1 == "candidate"))).map
        (fun kv => ("session_" ++ kv.1, flattenValue kv.2))
      ++ d.map (fun kv => ("similarity_" ++ kv.1, flattenValue kv.2))
    ∧ (∀ kv ∈ flatten_data s d, isContainer kv.2 = false)
    ∧ flatten_data
        [("end_time", .str "2024-01-01"), ("nested", .obj [("a", .int 1)])]
        [("score", .float "0.2")] =
      [("session_end_time", .str "2024-01-01"),
       ("session_nested", .str "\x7b\"a\": 1\x7d"),
       ("similarity_score", .float "0.2")] := by
  refine ⟨flatten_data_eq s d hs hd, ?_, rfl⟩
  intro kv hkv
  rw [flatten_data_eq s d hs hd] at hkv
  rcases List.mem_append.mp hkv with hm | hm <;>
    rcases List.mem_map.mp hm with ⟨kv2, _, heq⟩ <;>
      rw [← heq] <;> exact flattenValue_not_container kv2.2

/-- Witness for C1 at the concrete example of the spec. -/
theorem claim_C1_flatten_namespacing_witness :
    flatten_data
        [("end_time", .str "2024-01-01"), ("nested", .obj [("a", .int 1)])]
        [("score", .float "0.2")] =
      [("session_end_time", .str "2024-01-01"),
       ("session_nested", .str "\x7b\"a\": 1\x7d"),
       ("similarity_score", .float "0.2")] :=
  (claim_C1_flatten_namespacing
    [("end_time", .str "2024-01-01"), ("nested", .obj [("a", .int 1)])]
    [("score", .float "0.2")] (by decide) (by decide)).2.2

/-- C7: for every detail record whose `candidate` field is exactly the
sub-record of the example in the spec, the produced row carries the three promoted
top-level fields with those values and has no `session_candidate` column. -/
theorem claim_C7_candidate_promotion (data sim : List (String × Json))
    (hc : getD data "candidate" (Json.obj []) =
      Json.obj [("firstName", Json.str "Ann"), ("lastName", Json.str "Lee"),
                ("email", Json.str "a@x.com")]) :
    ∀ r, buildRecord data sim = some r →
      getOpt r "first_name" = some (Json.str "Ann") ∧
      getOpt r "last_name" = some (Json.str "Lee") ∧
      getOpt r "email" = some (Json.str "a@x.com") ∧
      "session_candidate" ∉ r.map Prod.fst := by
  intro r hr
  have hfields := getOpt_record_fields data sim _ hc r hr
  refine ⟨hfields.1, hfields.2.1, hfields.2.2, ?_⟩
  rw [buildRecord_eq data sim _ hc] at hr
  have hr2 : r = flatten_data data sim ++
      [("first_name", Json.str "Ann"), ("last_name", Json.str "Lee"),
       ("email", Json.str "a@x.com")] := (Option.some.injEq _ _ ▸ hr).symm
  subst hr2
  rw [List.map_append]
  intro hmem
  have hcat : "session_candidate" = "session_" ++ "candidate" := by decide
  rcases List.mem_append.mp hmem with hm | hm
  · rcases flatten_keys data sim _ hm with ⟨kv, _, hne, hval⟩ | ⟨kv, _, hval⟩
    · have hk : kv.1 = "candidate" :=
        str_append_cancel "session_" kv.1 "candidate" (hval.symm.trans hcat)
      rw [hk] at hne
      exact Bool.noConfusion hne
    · exact session_similarity_disjoint "candidate" kv.1 (hcat.symm.trans hval)
  · simp at hm

/-- Witness for C7 at a concrete detail record. -/
theorem claim_C7_candidate_promotion_witness :
    getOpt [("session_end_time", Json.str "2024-02-02"),
            ("first_name", Json.str "Ann"), ("last_name", Json.str "Lee"),
            ("email", Json.str "a@x.com")] "first_name" = some (Json.str "Ann") ∧
    getOpt [("session_end_time", Json.str "2024-02-02"),
            ("first_name", Json.str "Ann"), ("last_name", Json.str "Lee"),
            ("email", Json.str "a@x.com")] "last_name" = some (Json.str "Lee") ∧
    getOpt [("session_end_time", Json.str "2024-02-02"),
            ("first_name", Json.str "Ann"), ("last_name", Json.str "Lee"),
            ("email", Json.str "a@x.com")] "email" = some (Json.str "a@x.com") ∧
    "session_candidate" ∉
      ([("session_end_time", Json.str "2024-02-02"),
        ("first_name", Json.str "Ann"), ("last_name", Json.str "Lee"),
        ("email", Json.str "a@x.com")] : List (String × Json)).map Prod.fst :=
  claim_C7_candidate_promotion
    [("end_time", Json.str "2024-02-02"),
     ("candidate", Json.obj [("firstName", Json.str "Ann"),
        ("lastName", Json.str "Lee"), ("email", Json.str "a@x.com")])]
    [] rfl _ rfl

/-- C9: every key produced by `flatten_data` starts with `session_` or
`similarity_`; the three promoted candidate assignments therefore never
overwrite a flattened field (the row is the flattened record with the three
pairs appended), and the unnamespaced keys of a produced row are exactly
`first_name`, `last_name`, `email`. -/
theorem claim_C9_namespacing_invariant :
    (∀ (s d : List (String × Json)) (key : String),
       key ∈ (flatten_data s d).map Prod.fst →
       strHasPre "session_" key = true ∨ strHasPre "similarity_" key = true)
    ∧ (∀ (data sim cand : List (String × Json)),
         getD data "candidate" (Json.obj []) = Json.obj cand →
         buildRecord data sim = some (flatten_data data sim ++
           [("first_name", getD cand "firstName" (Json.str "")),
            ("last_name", getD cand "lastName" (Json.str "")),
            ("email", getD cand "email" (Json.str ""))]))
    ∧ (∀ (data sim : List (String × Json)) (r : List (String × Json)),
         buildRecord data sim = some r →
         (r.map Prod.fst).filter
           (fun key => !(strHasPre "session_" key || strHasPre "similarity_" key)) =
           ["first_name", "last_name", "email"]) := by
  refine ⟨flatten_keys_pre, buildRecord_eq, ?_⟩
  intro data sim r hr
  cases hcand : getD data "candidate" (Json.obj []) with
  | obj cand =>
    rw [buildRecord_eq data sim cand hcand] at hr
    have hr2 : r = flatten_data data sim ++
        [("first_name", getD cand "firstName" (Json.str "")),
         ("last_name", getD cand "lastName" (Json.str "")),
         ("email", getD cand "email" (Json.str ""))] := (Option.some.injEq _ _ ▸ hr).symm
    subst hr2
    have hnil : ((flatten_data data sim).map Prod.fst).filter
        (fun key => !(strHasPre "session_" key || strHasPre "similarity_" key)) = [] := by
      rw [List.filter_eq_nil_iff]
      intro k hk
      rcases flatten_keys_pre data sim k hk with h | h <;> simp [h]
    rw [List.map_append, List.filter_append, hnil, List.nil_append]
    simp only [List.map_cons, List.map_nil]
    decide
  | null => simp [buildRecord, hcand] at hr
  | bool b => simp [buildRecord, hcand] at hr
  | int n => simp [buildRecord, hcand] at hr
  | float f => simp [buildRecord, hcand] at hr
  | str s2 => simp [buildRecord, hcand] at hr
  | arr xs => simp [buildRecord, hcand] at hr

/-- Witness for C9 at a concrete record. -/
theorem claim_C9_namespacing_invariant_witness :
    (([("session_end_time", Json.str "x"), ("first_name", Json.str ""),
       ("last_name", Json.str ""), ("email", Json.str "")] :
        List (String × Json)).map Prod.fst).filter
      (fun key => !(strHasPre "session_" key || strHasPre "similarity_" key)) =
      ["first_name", "last_name", "email"] :=
  claim_C9_namespacing_invariant.2.2 [("end_time", Json.str "x")] []
    [("session_end_time", Json.str "x"), ("first_name", Json.str ""),
     ("last_name", Json.str ""), ("email", Json.str "")] rfl

/-- C10: when the detail record lacks a `candidate` sub-record, or the
candidate sub-record lacks `firstName`, `lastName` or `email`, the produced
row still carries the promoted columns, each defaulting to the empty
string. -/
theorem claim_C10_candidate_defaults (data sim cand : List (String × Json))
    (hc : getD data "candidate" (Json.obj []) = Json.obj cand) :
    (getOpt data "candidate" = none → getD data "candidate" (Json.obj []) = Json.obj []) ∧
    ∀ r, buildRecord data sim = some r →
      (getOpt cand "firstName" = none → getOpt r "first_name" = some (Json.str "")) ∧
      (getOpt cand "lastName" = none → getOpt r "last_name" = some (Json.str "")) ∧
      (getOpt cand "email" = none → getOpt r "email" = some (Json.str "")) := by
  constructor
  · intro h
    simp [getD, h]
  · intro r hr
    have hfields := getOpt_record_fields data sim cand hc r hr
    refine ⟨?_, ?_, ?_⟩
    · intro h
      rw [hfields.1]
      simp [getD, h]
    · intro h
      rw [hfields.2.1]
      simp [getD, h]
    · intro h
      rw [hfields.2.2]
      simp [getD, h]

/-- Witness for C10: a detail record with no candidate sub-record. -/
theorem claim_C10_candidate_defaults_witness :
    getOpt [("session_end_time", Json.str "2024-02-02"), ("first_name", Json.str ""),
            ("last_name", Json.str ""), ("email", Json.str "")] "first_name" =
      some (Json.str "") ∧
    getOpt [("session_end_time", Json.str "2024-02-02"), ("first_name", Json.str ""),
            ("last_name", Json.str ""), ("email", Json.str "")] "last_name" =
      some (Json.str "") ∧
    getOpt [("session_end_time", Json.str "2024-02-02"), ("first_name", Json.str ""),
            ("last_name", Json.str ""), ("email", Json.str "")] "email" =
      some (Json.str "") := by
  have h := (claim_C10_candidate_defaults [("end_time", Json.str "2024-02-02")] [] [] rfl).2
    [("session_end_time", Json.str "2024-02-02"), ("first_name", Json.str ""),
     ("last_name", Json.str ""), ("email", Json.str "")] rfl
  exact ⟨h.1 rfl, h.2.1 rfl, h.2.2 rfl⟩

lemma processSessions_filter_map (o : ApiOracle) :
    ∀ (sessions : List Json) (records : List (List (String × Json))),
      processSessions o sessions = some records →
      records = (sessions.filter (sessionIncluded o)).map (sessionRow o) := by
  intro sessions
  induction sessions with
  | nil =>
    intro records h
    have h2 : ([] : List (List (String × Json))) = records := Option.some.injEq _ _ ▸ h
    rw [← h2]
    rfl
  | cons sess rest ih =>
    intro records h
    cases sess with
    | obj skvs =>
      by_cases hinc : truthyO (getOpt (o.session_data (getOpt skvs "id")) "end_time") = true
      · simp only [processSessions, hinc, if_true] at h
        cases hbuild : buildRecord (o.session_data (getOpt skvs "id"))
            (o.similarity (getOpt skvs "id")) with
        | none => rw [hbuild] at h; exact absurd h (by simp)
        | some record =>
          rw [hbuild] at h
          rcases Option.map_eq_some'.mp h with ⟨recs2, hrest, hcons⟩
          have hfilter : (Json.obj skvs :: rest).filter (sessionIncluded o) =
              Json.obj skvs :: rest.filter (sessionIncluded o) :=
            List.filter_cons_of_pos hinc
          rw [hfilter, List.map_cons, ← hcons, ih recs2 hrest]
          have hrow : sessionRow o (Json.obj skvs) = record := by
            simp only [sessionRow, hbuild, Option.getD_some]
          rw [hrow]
      · simp only [processSessions, hinc, if_false] at h
        have hfilter : (Json.obj skvs :: rest).filter (sessionIncluded o) =
            rest.filter (sessionIncluded o) :=
          List.filter_cons_of_neg hinc
        rw [hfilter, ih records h]
    | null => simp [processSessions] at h
    | bool b => simp [processSessions] at h
    | int n => simp [processSessions] at h
    | float f => simp [processSessions] at h
    | str s2 => simp [processSessions] at h
    | arr xs => simp [processSessions] at h

/-- C2: whenever the export loop completes, its output records are exactly
the rows of those sessions whose fetched detail record carries a truthy
`end_time`, in order; a `null`, absent, or empty completion marker excludes
the session, the marker "2024-02-02" includes it. -/
theorem claim_C2_completion_filter (o : ApiOracle) (sessions : List Json)
    (records : List (List (String × Json)))
    (h : processSessions o sessions = some records) :
    records = (sessions.filter (sessionIncluded o)).map (sessionRow o)
    ∧ truthyO none = false
    ∧ truthyO (some Json.null) = false
    ∧ truthyO (some (Json.str "")) = false
    ∧ truthyO (some (Json.str "2024-02-02")) = true :=
  ⟨processSessions_filter_map o sessions records h, rfl, rfl, rfl, rfl⟩

/-- Witness for C2: two sessions, one with `end_time` null and one with
`end_time` "2024-02-02"; only the second produces a record. -/
theorem claim_C2_completion_filter_witness :
    [[("session_end_time", Json.str "2024-02-02"),
      ("similarity_score", Json.float "0.2"),
      ("first_name", Json.str ""), ("last_name", Json.str ""),
      ("email", Json.str "")]] =
      (([Json.obj [("id", Json.str "s1")], Json.obj [("id", Json.str "s2")]].filter
        (sessionIncluded
          ⟨[], fun _ => [],
           fun sid =>
             match sid with
             | some (Json.str "s1") => [("end_time", Json.null)]
             | _ => [("end_time", Json.str "2024-02-02")],
           fun _ => [("score", Json.float "0.2")]⟩)).map
        (sessionRow
          ⟨[], fun _ => [],
           fun sid =>
             match sid with
             | some (Json.str "s1") => [("end_time", Json.null)]
             | _ => [("end_time", Json.str "2024-02-02")],
           fun _ => [("score", Json.float "0.2")]⟩)) :=
  (claim_C2_completion_filter
    ⟨[], fun _ => [],
     fun sid =>
       match sid with
       | some (Json.str "s1") => [("end_time", Json.null)]
       | _ => [("end_time", Json.str "2024-02-02")],
     fun _ => [("score", Json.float "0.2")]⟩
    [Json.obj [("id", Json.str "s1")], Json.obj [("id", Json.str "s2")]]
    [[("session_end_time", Json.str "2024-02-02"),
      ("similarity_score", Json.float "0.2"),
      ("first_name", Json.str ""), ("last_name", Json.str ""),
      ("email", Json.str "")]] rfl).1

lemma runMain_to_afterTests (k : String) (o : ApiOracle) (rawName : String)
    (tsJ : List Json) (tests : List (List (String × Json)))
    (hk : (k == "") = false)
    (h1 : truthy (getD o.tests_resp "tests" (Json.arr [])) = true)
    (h2 : pyIter (getD o.tests_resp "tests" (Json.arr [])) = some tsJ)
    (h3 : tsJ.mapM asObjWithId = some tests) :
    runMain (some k) o rawName = afterTests o rawName tests := by
  simp only [runMain, hk, h1, h2, h3, Bool.false_eq_true, if_false, if_true]

lemma afterTests_no_match (o : ApiOracle) (rawName : String)
    (tests : List (List (String × Json)))
    (h : tests.filter (fun t => matchesName (pyStrip rawName) t) = []) :
    afterTests o rawName tests =
      .exited 1 ("No test found with name \x27" ++ pyStrip rawName ++ "\x27") := by
  simp only [afterTests, h]

lemma afterTests_match (o : ApiOracle) (rawName : String)
    (tests : List (List (String × Json))) (t0 : List (String × Json))
    (rest : List (List (String × Json)))
    (h : tests.filter (fun t => matchesName (pyStrip rawName) t) = t0 :: rest) :
    afterTests o rawName tests =
      exportForTest o (pyStrip rawName) ((getOpt t0 "id").getD Json.null) := by
  simp only [afterTests, h]

lemma matchesName_iff (name : String) (t : List (String × Json)) :
    matchesName name t = true ↔
      (getOpt t "title" = some (Json.str name) ∨ getOpt t "name" = some (Json.str name)) := by
  simp only [matchesName, Bool.or_eq_true]
  constructor
  · rintro (h | h)
    · left
      cases htitle : getOpt t "title" with
      | none => rw [htitle] at h; exact absurd h (by simp)
      | some j =>
        rw [htitle] at h
        cases j <;> simp_all [beq_iff_eq]
    · right
      cases hname : getOpt t "name" with
      | none => rw [hname] at h; exact absurd h (by simp)
      | some j =>
        rw [hname] at h
        cases j <;> simp_all [beq_iff_eq]
  · rintro (h | h)
    · left; rw [h]; simp
    · right; rw [h]; simp

lemma exportForTest_no_completed (o : ApiOracle) (name : String) (tid : Json)
    (sessions : List Json)
    (h1 : pyIter (getD (o.sessions_resp tid) "sessions" (Json.arr [])) = some sessions)
    (h2 : processSessions o sessions = some []) :
    exportForTest o name tid = .exited 0 "No completed sessions found for this test." := by
  simp only [exportForTest, h1, h2]

lemma exportForTest_wrote (o : ApiOracle) (name : String) (tid : Json)
    (f : String) (fl : List String) (rs : List (List (String × Json)))
    (h : exportForTest o name tid = .wrote f fl rs) :
    ∃ r0 rs2, rs = r0 :: rs2 ∧ fl = sortStrings (r0.map Prod.fst) ∧
      f = replaceSpaces name ++ "_completed_sessions.csv" := by
  unfold exportForTest at h
  split at h
  · exact absurd h (by simp)
  · split at h
    · exact absurd h (by simp)
    · exact absurd h (by simp)
    · split at h
      · injection h with hf hfl hrs
        exact ⟨_, _, hrs.symm, hfl.symm, hf.symm⟩
      · exact absurd h (by simp)

lemma afterTests_wrote (o : ApiOracle) (rawName : String)
    (tests : List (List (String × Json))) (f : String) (fl : List String)
    (rs : List (List (String × Json)))
    (h : afterTests o rawName tests = .wrote f fl rs) :
    ∃ r0 rs2, rs = r0 :: rs2 ∧ fl = sortStrings (r0.map Prod.fst) ∧
      f = replaceSpaces (pyStrip rawName) ++ "_completed_sessions.csv" := by
  unfold afterTests at h
  split at h
  · exact absurd h (by simp)
  · exact exportForTest_wrote _ _ _ _ _ _ h

lemma runMain_wrote (apiKey : Option String) (o : ApiOracle) (rawName f : String)
    (fl : List String) (rs : List (List (String × Json)))
    (h : runMain apiKey o rawName = .wrote f fl rs) :
    ∃ r0 rs2, rs = r0 :: rs2 ∧ fl = sortStrings (r0.map Prod.fst) := by
  unfold runMain at h
  split at h
  · exact absurd h (by simp)
  · split at h
    · exact absurd h (by simp)
    · split at h
      · split at h
        · exact absurd h (by simp)
        · split at h
          · exact absurd h (by simp)
          · obtain ⟨r0, rs2, hcons, hfl, _⟩ := afterTests_wrote _ _ _ _ _ _ h
            exact ⟨r0, rs2, hcons, hfl⟩
      · exact absurd h (by simp)

/-- C5: name resolution matches a test by exact string equality of the input
against the `title` or `name` field; with no match the run exits with code 1
and writes no file; with matches the run continues with the id of the first
match in list order. -/
theorem claim_C5_name_resolution (k : String) (o : ApiOracle) (rawName : String)
    (tsJ : List Json) (tests : List (List (String × Json)))
    (hk : (k == "") = false)
    (h1 : truthy (getD o.tests_resp "tests" (Json.arr [])) = true)
    (h2 : pyIter (getD o.tests_resp "tests" (Json.arr [])) = some tsJ)
    (h3 : tsJ.mapM asObjWithId = some tests) :
    (∀ t, matchesName (pyStrip rawName) t = true ↔
       (getOpt t "title" = some (Json.str (pyStrip rawName)) ∨
        getOpt t "name" = some (Json.str (pyStrip rawName))))
    ∧ (tests.filter (fun t => matchesName (pyStrip rawName) t) = [] →
        runMain (some k) o rawName =
          .exited 1 ("No test found with name \x27" ++ pyStrip rawName ++ "\x27") ∧
        producesFile (runMain (some k) o rawName) = false ∧
        exitCode (runMain (some k) o rawName) = some 1)
    ∧ (∀ t0 rest, tests.filter (fun t => matchesName (pyStrip rawName) t) = t0 :: rest →
        runMain (some k) o rawName =
          exportForTest o (pyStrip rawName) ((getOpt t0 "id").getD Json.null)) := by
  refine ⟨fun t => matchesName_iff (pyStrip rawName) t, ?_, ?_⟩
  · intro hfil
    have heq := (runMain_to_afterTests k o rawName tsJ tests hk h1 h2 h3).trans
      (afterTests_no_match o rawName tests hfil)
    exact ⟨heq, by rw [heq]; rfl, by rw [heq]; rfl⟩
  · intro t0 rest hfil
    exact (runMain_to_afterTests k o rawName tsJ tests hk h1 h2 h3).trans
      (afterTests_match o rawName tests t0 rest hfil)

/-- Witness for C5: a one-test account and a name matching no test. -/
theorem claim_C5_name_resolution_witness :
    runMain (some "key")
      ⟨[("tests", Json.arr [Json.obj [("id", Json.str "t1"),
          ("title", Json.str "Backend Role")]])],
       fun _ => [], fun _ => [], fun _ => []⟩ "Nope" =
      .exited 1 "No test found with name \x27Nope\x27" ∧
    producesFile (runMain (some "key")
      ⟨[("tests", Json.arr [Json.obj [("id", Json.str "t1"),
          ("title", Json.str "Backend Role")]])],
       fun _ => [], fun _ => [], fun _ => []⟩ "Nope") = false := by
  have h := (claim_C5_name_resolution "key"
    ⟨[("tests", Json.arr [Json.obj [("id", Json.str "t1"),
        ("title", Json.str "Backend Role")]])],
     fun _ => [], fun _ => [], fun _ => []⟩ "Nope"
    [Json.obj [("id", Json.str "t1"), ("title", Json.str "Backend Role")]]
    [[("id", Json.str "t1"), ("title", Json.str "Backend Role")]]
    rfl rfl rfl rfl).2.1 rfl
  exact ⟨h.1, h.2.1⟩

/-- C6: whenever the run writes a file, the header is the sorted key list of
the first record only: it is `sortStrings` of the keys of the first record, its
members are exactly the keys of the first record (a key occurring only in a later
record is never in the header), and it is sorted. -/
theorem claim_C6_header_from_first_row (apiKey : Option String) (o : ApiOracle)
    (rawName f : String) (fl : List String) (r0 : List (String × Json))
    (rs2 : List (List (String × Json)))
    (h : runMain apiKey o rawName = .wrote f fl (r0 :: rs2)) :
    fl = sortStrings (r0.map Prod.fst)
    ∧ (∀ key, key ∈ fl ↔ key ∈ r0.map Prod.fst)
    ∧ List.Sorted (fun a b : String => strLeB a b = true) fl := by
  obtain ⟨r0b, rs2b, hcons, hfl⟩ := runMain_wrote apiKey o rawName f fl (r0 :: rs2) h
  injection hcons with hh ht
  rw [← hh] at hfl
  refine ⟨hfl, ?_, ?_⟩
  · intro key
    rw [hfl]
    exact (List.perm_insertionSort (fun a b : String => strLeB a b = true) _).mem_iff
  · rw [hfl]
    exact List.sorted_insertionSort (fun a b : String => strLeB a b = true) _

/-- Witness for C6: a complete concrete export run with one completed
session. -/
theorem claim_C6_header_from_first_row_witness :
    (["email", "first_name", "last_name", "session_end_time", "similarity_score"] :
        List String) =
      sortStrings ([("session_end_time", Json.str "2024-02-02"),
        ("similarity_score", Json.float "0.2"), ("first_name", Json.str "Ann"),
        ("last_name", Json.str "Lee"), ("email", Json.str "a@x.com")].map Prod.fst)
    ∧ (∀ key,
        key ∈ (["email", "first_name", "last_name", "session_end_time",
          "similarity_score"] : List String) ↔
        key ∈ ([("session_end_time", Json.str "2024-02-02"),
          ("similarity_score", Json.float "0.2"), ("first_name", Json.str "Ann"),
          ("last_name", Json.str "Lee"),
          ("email", Json.str "a@x.com")].map Prod.fst))
    ∧ List.Sorted (fun a b : String => strLeB a b = true)
        ["email", "first_name", "last_name", "session_end_time", "similarity_score"] :=
  claim_C6_header_from_first_row (some "key")
    ⟨[("tests", Json.arr [Json.obj [("id", Json.str "t1"),
        ("title", Json.str "Backend Role")]])],
     fun _ => [("sessions", Json.arr [Json.obj [("id", Json.str "s1")]])],
     fun _ => [("end_time", Json.str "2024-02-02"),
        ("candidate", Json.obj [("firstName", Json.str "Ann"),
          ("lastName", Json.str "Lee"), ("email", Json.str "a@x.com")])],
     fun _ => [("score", Json.float "0.2")]⟩
    "Backend Role" "Backend_Role_completed_sessions.csv"
    ["email", "first_name", "last_name", "session_end_time", "similarity_score"]
    [("session_end_time", Json.str "2024-02-02"),
     ("similarity_score", Json.float "0.2"), ("first_name", Json.str "Ann"),
     ("last_name", Json.str "Lee"), ("email", Json.str "a@x.com")]
    [] rfl

/-- C8: empty-result conditions are not errors: an account with no tests, or
a test with no completed sessions, exits with code 0, prints the
informational message, and writes no file; a successful export also has exit
code 0, while the fatal exits carry code 1. -/
theorem claim_C8_empty_results (k : String) (o : ApiOracle) (rawName : String)
    (hk : (k == "") = false) :
    (truthy (getD o.tests_resp "tests" (Json.arr [])) = false →
       runMain (some k) o rawName = .exited 0 "No tests found in your account." ∧
       producesFile (runMain (some k) o rawName) = false ∧
       exitCode (runMain (some k) o rawName) = some 0)
    ∧ (∀ tsJ tests t0 rest sessions,
        truthy (getD o.tests_resp "tests" (Json.arr [])) = true →
        pyIter (getD o.tests_resp "tests" (Json.arr [])) = some tsJ →
        tsJ.mapM asObjWithId = some tests →
        tests.filter (fun t => matchesName (pyStrip rawName) t) = t0 :: rest →
        pyIter (getD (o.sessions_resp ((getOpt t0 "id").getD Json.null))
          "sessions" (Json.arr [])) = some sessions →
        processSessions o sessions = some [] →
        runMain (some k) o rawName =
          .exited 0 "No completed sessions found for this test." ∧
        producesFile (runMain (some k) o rawName) = false ∧
        exitCode (runMain (some k) o rawName) = some 0)
    ∧ (∀ f fl rs, exitCode (MainResult.wrote f fl rs) = some 0)
    ∧ (∀ m, exitCode (MainResult.exited 1 m) = some 1) := by
  refine ⟨?_, ?_, fun f fl rs => rfl, fun m => rfl⟩
  · intro h
    have heq : runMain (some k) o rawName = .exited 0 "No tests found in your account." := by
      simp only [runMain, hk, h, Bool.false_eq_true, if_false]
    exact ⟨heq, by rw [heq]; rfl, by rw [heq]; rfl⟩
  · intro tsJ tests t0 rest sessions h1 h2 h3 hfil hsess hproc
    have heq := (runMain_to_afterTests k o rawName tsJ tests hk h1 h2 h3).trans
      ((afterTests_match o rawName tests t0 rest hfil).trans
        (exportForTest_no_completed o (pyStrip rawName)
          ((getOpt t0 "id").getD Json.null) sessions hsess hproc))
    exact ⟨heq, by rw [heq]; rfl, by rw [heq]; rfl⟩

/-- Witness for C8: an account with no tests, and a test whose session list
is empty. -/
theorem claim_C8_empty_results_witness :
    runMain (some "key") ⟨[], fun _ => [], fun _ => [], fun _ => []⟩ "x" =
      .exited 0 "No tests found in your account." ∧
    runMain (some "key")
      ⟨[("tests", Json.arr [Json.obj [("id", Json.str "t1"),
          ("title", Json.str "T")]])],
       fun _ => [("sessions", Json.arr [])], fun _ => [], fun _ => []⟩ "T" =
      .exited 0 "No completed sessions found for this test." := by
  have ha := (claim_C8_empty_results "key"
    ⟨[], fun _ => [], fun _ => [], fun _ => []⟩ "x" rfl).1 rfl
  have hb := (claim_C8_empty_results "key"
    ⟨[("tests", Json.arr [Json.obj [("id", Json.str "t1"),
        ("title", Json.str "T")]])],
     fun _ => [("sessions", Json.arr [])], fun _ => [], fun _ => []⟩ "T" rfl).2.1
    [Json.obj [("id", Json.str "t1"), ("title", Json.str "T")]]
    [[("id", Json.str "t1"), ("title", Json.str "T")]]
    [("id", Json.str "t1"), ("title", Json.str "T")] [] []
    rfl rfl rfl rfl rfl rfl
  exact ⟨ha.1, hb.1⟩

lemma jsonCall_spec (net : HttpRequest → HttpResponse) (req : HttpRequest) :
    jsonCall net req = specJsonOutcome (net req) := by
  unfold jsonCall specJsonOutcome raise_for_status HttpResponse.json
  cases h : errClassB (net req).status <;> simp [h]

lemma bytesCall_spec (net : HttpRequest → HttpResponse) (req : HttpRequest) :
    bytesCall net req = specBytesOutcome (net req) := by
  unfold bytesCall specBytesOutcome raise_for_status
  cases h : errClassB (net req).status <;> simp [h]

lemma unitCall_spec (net : HttpRequest → HttpResponse) (req : HttpRequest) :
    unitCall net req = specUnitOutcome (net req) := by
  unfold unitCall specUnitOutcome raise_for_status
  cases h : errClassB (net req).status <;> simp [h]

/-- C3 (amended): every client operation issues its one fixed request and its
result is determined by that single response: a status of the client-error or
server-error class (4xx/5xx) fails the call with the structured HTTP failure
carrying status and body, any other status does not raise the HTTP failure,
and a success returns the parsed body (raw bytes for the PDF report,
no value for cancellation) unmodified and unretried.  In particular every
2xx status is outside the error class. -/
theorem claim_C3_amended_http_failure (c : CodilityAPIClient)
    (net : HttpRequest → HttpResponse) :
    (∀ st, errClassB st = true ↔ (400 ≤ st ∧ st < 600))
    ∧ (∀ st, 200 ≤ st → st < 300 → errClassB st = false)
    ∧ (∀ r j, errClassB r.status = false → r.jsonBody = some j →
        specJsonOutcome r = Except.ok j)
    ∧ (∀ r, errClassB r.status = false → specBytesOutcome r = Except.ok r.content)
    ∧ (∀ r, errClassB r.status = true →
        specJsonOutcome r = Except.error (ApiError.httpError r.status r.content))
    ∧ c.get_user_details net =
        specJsonOutcome (net ⟨.get, c.base_url ++ "/account/user", none⟩)
    ∧ c.get_available_credits net =
        specJsonOutcome (net ⟨.get, c.base_url ++ "/account/credits", none⟩)
    ∧ c.list_user_logins net =
        specJsonOutcome (net ⟨.get, c.base_url ++ "/account/logins", none⟩)
    ∧ c.list_codelive_templates net =
        specJsonOutcome (net ⟨.get, c.base_url ++ "/codelive/templates", none⟩)
    ∧ (∀ template_id candidate_info,
        c.create_codelive_session net template_id candidate_info =
          specJsonOutcome (net ⟨.post, c.base_url ++ "/codelive/sessions",
            some (Json.obj (candidate_info.foldl (fun m kv => insertA m kv.1 kv.2)
              [("template_id", Json.str template_id)]))⟩))
    ∧ (∀ sid, c.create_whiteboard net sid =
        specJsonOutcome (net ⟨.post, c.base_url ++ "/codelive/whiteboards",
          some (Json.obj [("session_id", Json.str sid)])⟩))
    ∧ c.list_email_templates net =
        specJsonOutcome (net ⟨.get, c.base_url ++ "/email/templates", none⟩)
    ∧ c.get_default_email_template net =
        specJsonOutcome (net ⟨.get, c.base_url ++ "/email/templates/default", none⟩)
    ∧ (∀ name subject body, c.create_email_template net name subject body =
        specJsonOutcome (net ⟨.post, c.base_url ++ "/email/templates",
          some (Json.obj [("name", Json.str name), ("subject", Json.str subject),
            ("body", Json.str body)])⟩))
    ∧ c.list_sessions net =
        specJsonOutcome (net ⟨.get, c.base_url ++ "/sessions", none⟩)
    ∧ (∀ sid, c.get_session_data net sid =
        specJsonOutcome (net ⟨.get, c.base_url ++ "/sessions/" ++ sid, none⟩))
    ∧ (∀ sid, c.get_pdf_report net sid =
        specBytesOutcome (net ⟨.get,
          c.base_url ++ "/sessions/" ++ sid ++ "/report/pdf", none⟩))
    ∧ (∀ sid, c.get_similarity_results net sid =
        specJsonOutcome (net ⟨.get,
          c.base_url ++ "/sessions/" ++ sid ++ "/similarity", none⟩))
    ∧ (∀ sid tid, c.email_candidates net sid tid =
        specJsonOutcome (net ⟨.post, c.base_url ++ "/sessions/" ++ sid ++ "/email",
          some (Json.obj [("template_id", Json.str tid)])⟩))
    ∧ (∀ sid, c.cancel_session net sid =
        specUnitOutcome (net ⟨.delete, c.base_url ++ "/sessions/" ++ sid, none⟩))
    ∧ (∀ sid, c.embed_candidate_report net sid =
        specJsonOutcome (net ⟨.get,
          c.base_url ++ "/sessions/" ++ sid ++ "/embed", none⟩))
    ∧ c.list_tests net = specJsonOutcome (net ⟨.get, c.base_url ++ "/tests", none⟩)
    ∧ (∀ tid, c.get_test_details net tid =
        specJsonOutcome (net ⟨.get, c.base_url ++ "/tests/" ++ tid, none⟩))
    ∧ (∀ tid, c.list_test_sessions net tid =
        specJsonOutcome (net ⟨.get,
          c.base_url ++ "/tests/" ++ tid ++ "/sessions", none⟩))
    ∧ (∀ tid cands, c.add_candidates net tid cands =
        specJsonOutcome (net ⟨.post, c.base_url ++ "/tests/" ++ tid ++ "/candidates",
          some (Json.obj [("candidates", Json.arr cands)])⟩)) := by
  refine ⟨?_, ?_, ?_, ?_, ?_,
    jsonCall_spec net _, jsonCall_spec net _, jsonCall_spec net _, jsonCall_spec net _,
    fun _ _ => jsonCall_spec net _, fun _ => jsonCall_spec net _,
    jsonCall_spec net _, jsonCall_spec net _, fun _ _ _ => jsonCall_spec net _,
    jsonCall_spec net _, fun _ => jsonCall_spec net _, fun _ => bytesCall_spec net _,
    fun _ => jsonCall_spec net _, fun _ _ => jsonCall_spec net _,
    fun _ => unitCall_spec net _, fun _ => jsonCall_spec net _,
    jsonCall_spec net _, fun _ => jsonCall_spec net _, fun _ => jsonCall_spec net _,
    fun _ _ => jsonCall_spec net _⟩
  · intro st
    simp [errClassB]
  · intro st h1 h2
    have h3 : ¬ 400 ≤ st := by omega
    simp [errClassB, h3]
  · intro r j h hj
    simp [specJsonOutcome, h, hj]
  · intro r h
    simp [specBytesOutcome, h]
  · intro r h
    simp [specJsonOutcome, h]

/-- Witness for C3 (amended): a 500 response fails `get_session_data` with
the structured HTTP failure. -/
theorem claim_C3_amended_http_failure_witness :
    CodilityAPIClient.get_session_data (CodilityAPIClient.initDefault "key")
      (fun _ => ⟨500, some Json.null, [37]⟩) "s1" =
      Except.error (ApiError.httpError 500 [37]) := by
  have h := (claim_C3_amended_http_failure (CodilityAPIClient.initDefault "key")
    (fun _ => ⟨500, some Json.null, [37]⟩)).2.2.2.2.2.2.2.2.2.2.2.2.2.2.2.1 "s1"
  exact h.trans rfl

/-- Counterexample to C3 as stated: a 304 Not Modified response is not a 2xx
status, yet `raise_for_status` raises only on 4xx/5xx, so the call succeeds
and returns the parsed body instead of failing. -/
theorem claim_C3_counterexample :
    CodilityAPIClient.get_session_data (CodilityAPIClient.initDefault "key")
      (fun _ => ⟨304, some (Json.obj []), []⟩) "s1" = Except.ok (Json.obj []) ∧
    ¬ (200 ≤ 304 ∧ 304 < 300) := ⟨rfl, by omega⟩

lemma head_dropWhile_false {α : Type} (p : α → Bool) :
    ∀ (l : List α) (a : α), (l.dropWhile p).head? = some a → p a = false := by
  intro l
  induction l with
  | nil =>
    intro a h
    simp [List.dropWhile] at h
  | cons x xs ih =>
    intro a h
    by_cases hx : p x = true
    · rw [List.dropWhile_cons_of_pos hx] at h
      exact ih a h
    · rw [List.dropWhile_cons_of_neg hx] at h
      simp only [List.head?_cons, Option.some.injEq] at h
      rw [← h]
      exact Bool.not_eq_true (p x) ▸ hx

lemma rstripSlash_no_trailing (url : String) (a : Char)
    (h : (rstripSlash url).data.getLast? = some a) : (a == '/') = false := by
  unfold rstripSlash at h
  rw [List.getLast?_reverse] at h
  exact head_dropWhile_false (fun c => c == '/') url.data.reverse a h

/-- C4 (amended): the constructor performs no credential validation — any
string, the empty string included, is accepted and stored verbatim in the
Bearer header — while the trailing-slash normalization of the base URL does
hold; the empty-credential rejection lives in the export script, which exits
with code 1 before constructing a client when the environment variable is
unset or empty. -/
theorem claim_C4_amended_credential_and_url :
    (∀ api_key base_url,
       (CodilityAPIClient.init api_key base_url).base_url = rstripSlash base_url ∧
       (CodilityAPIClient.init api_key base_url).headers =
         [("Authorization", "Bearer " ++ api_key),
          ("Content-Type", "application/json")])
    ∧ (∀ url a, (rstripSlash url).data.getLast? = some a → (a == '/') = false)
    ∧ (∀ o rawName, runMain none o rawName =
        .exited 1 "Error: Please set the CODILITY_API_KEY environment variable." ∧
        exitCode (runMain none o rawName) = some 1 ∧
        producesFile (runMain none o rawName) = false)
    ∧ (∀ o rawName, runMain (some "") o rawName =
        .exited 1 "Error: Please set the CODILITY_API_KEY environment variable." ∧
        exitCode (runMain (some "") o rawName) = some 1 ∧
        producesFile (runMain (some "") o rawName) = false) := by
  refine ⟨fun api_key base_url => ⟨rfl, rfl⟩, rstripSlash_no_trailing,
    fun o rawName => ⟨rfl, rfl, rfl⟩, fun o rawName => ⟨rfl, rfl, rfl⟩⟩

/-- Witness for C4 (amended): concrete normalization and missing-key exit. -/
theorem claim_C4_amended_credential_and_url_witness :
    (CodilityAPIClient.init "key" "https://codility.com/api/").base_url =
      "https://codility.com/api" ∧
    ((('b' : Char) == '/') = false) ∧
    runMain none ⟨[], fun _ => [], fun _ => [], fun _ => []⟩ "x" =
      .exited 1 "Error: Please set the CODILITY_API_KEY environment variable." := by
  have h := claim_C4_amended_credential_and_url
  refine ⟨(h.1 "key" "https://codility.com/api/").1.trans rfl, ?_, ?_⟩
  · exact h.2.1 "ab//" 'b' rfl
  · exact (h.2.2.1 ⟨[], fun _ => [], fun _ => [], fun _ => []⟩ "x").1

/-- Counterexample to C4 as stated: constructing the client with the empty
credential string is not rejected — it succeeds and stores the header
"Bearer " built from the empty credential (the base URL normalization is the
part that does hold). -/
theorem claim_C4_counterexample :
    CodilityAPIClient.init "" "https://codility.com/api/" =
      { base_url := "https://codility.com/api",
        headers := [("Authorization", "Bearer "),
                    ("Content-Type", "application/json")] } := rfl
